import Mathlib

/-!
Verification of the KiCad → NeoDen4 position-file converter (src/kicad2nd4.py).

The program is a single-pass CSV translator.  Its core is:
  * `PACKAGE_REGEXES` / `format_package` — footprint-identifier normalization
    by ordered regular-expression dispatch (first match wins, `re.match`
    semantics, i.e. anchored at position 0, matching a prefix of the input);
  * `format_value` — replaces the micro sign by "u" and deletes the ohm sign;
  * `format_position` — parses a decimal and formats it with two fractional
    digits plus a literal "mm" suffix;
  * `map_layer` — maps "top" to "T", "bottom" to "B", everything else to "";
  * `format_rotation` — parses a decimal angle, remaps angles above 180 by
    subtracting 360, and formats with one fractional digit;
  * `FIELDS_MAP` / `transform_row` — the ordered field-mapping table and the
    per-row conversion that applies it;
  * `main` — emits the header row, one all-blank row, then one converted row
    per input row (modelled here by `mainOutput`).

Modelling conventions.

Strings are Lean `String`s; character-level work happens on `String.data`
(a `List Char`).  The character classes of the source's regexes (`\w`, `\d`)
and Python's whitespace stripping are modelled over their ASCII behaviour
(`Char.isAlphanum`, `Char.isDigit`, `Char.isWhitespace`); the source, run on
non-ASCII word or digit characters, would additionally match Unicode word
characters, which no claim exercises.

Python's `float` followed by percent-style fixed formatting is modelled by
exact scaled-decimal arithmetic: a parsed number is a sign, a magnitude and
a power-of-ten denominator (`Dec`), kept exact, and fixed-point formatting
rounds half-to-even, which is what the C/Python formatting of the exactly
representable decimal values exercised by the specification produces.  The
IEEE-754 double rounding step performed by `float` is abstracted away (the
model is exact where the binary value is exact).  A negative sign is kept
even for zero magnitudes, so the model reproduces Python's "-0.0" outputs.
`float`'s full input grammar is modelled by `PyFloat`: finite decimal
literals with PEP-515 underscores between digits, the case-insensitive
spellings of infinity and NaN — which fixed formatting prints as "inf",
"-inf" and "nan" rather than failing — and outright rejection.

Each regular expression of `PACKAGE_REGEXES` is hand-compiled into a
deterministic function; the compilation argument from Python's
leftmost-greedy backtracking semantics is recorded next to each one.

Exceptions (`KeyError` from a missing dict key, `ValueError` from `float`)
are modelled by `Except ConvErr`; the error payload records what the Python
exception carries: the missing key, respectively the offending value string.
-/

/-- ASCII model of the regex class `\w` (word character): letters, digits,
underscore. -/
def isWordChar (c : Char) : Bool := c.isAlphanum || c == '_'

/-- Tail of `PACKAGE_REGEXES[0]`, the part after the first underscore:
`(?P<value>\d+)_\d+Metric`, matched against a prefix of `t`.

Compilation argument: `\d+` is greedy, and every shorter run it could
backtrack to is followed by a digit, while the regex then requires `_`
(respectively the literal `Metric`, starting with `M`); neither is a digit,
so only the maximal digit runs can ever succeed and the match is
deterministic.  The named group `value` is the first digit run. -/
def matchNumTail (t : List Char) : Option (List Char) :=
  let d1 := t.takeWhile Char.isDigit
  if d1.isEmpty then none else
  match t.drop d1.length with
  | c :: u =>
    if c = '_' then
      let d2 := u.takeWhile Char.isDigit
      if d2.isEmpty then none
      else if "Metric".data.isPrefixOf (u.drop d2.length) then some d1 else none
    else none
  | [] => none

/-- Backtracking loop of `PACKAGE_REGEXES[0]` = `\w+_(?P<value>\d+)_\d+Metric`
under `re.match`: the greedy `\w+` takes a nonempty prefix of length `k`,
longest first, the next character must be `_`, and the rest must satisfy
`matchNumTail`.  `p1Loop s n` tries `k = n, n-1, …, 1`. -/
def p1Loop (s : List Char) : Nat → Option (List Char)
  | 0 => none
  | (k+1) =>
    if s.get? (k+1) = some '_' then
      match matchNumTail (s.drop (k+2)) with
      | some v => some v
      | none => p1Loop s k
    else p1Loop s k

/-- `PACKAGE_REGEXES[0]` = `\w+_(?P<value>\d+)_\d+Metric`.  The greedy `\w+`
can take at most the maximal word-character prefix; `p1Loop` descends from
there.  (At the maximal length the following character is not a word
character, hence not `_`, so including it is harmless.) -/
def tryPattern1 (s : List Char) : Option (List Char) :=
  p1Loop s (s.takeWhile isWordChar).length

/-- `PACKAGE_REGEXES[1]` = `(?P<value>SOIC\-8).*`: under `re.match` this
matches exactly the strings starting with "SOIC-8" (the trailing `.*` also
matches the empty string), and the group is always the literal "SOIC-8". -/
def tryPattern2 (s : List Char) : Option (List Char) :=
  if "SOIC-8".data.isPrefixOf s then some "SOIC-8".data else none

/-- `PACKAGE_REGEXES[2]` = `(?P<value>Fiducial)_.*`: matches exactly the
strings starting with "Fiducial_", group = literal "Fiducial". -/
def tryPattern3 (s : List Char) : Option (List Char) :=
  if "Fiducial_".data.isPrefixOf s then some "Fiducial".data else none

/-- `PACKAGE_REGEXES[3]` = `R_Array_Convex_(?P<value>\d+x\d+)`: a literal
prefix, then the group.  As in `matchNumTail`, `x` and end-of-pattern are
not digits, so the greedy `\d+` runs are forced to be maximal and the match
is deterministic. -/
def tryPattern4 (s : List Char) : Option (List Char) :=
  if "R_Array_Convex_".data.isPrefixOf s then
    let t := s.drop 15
    let d1 := t.takeWhile Char.isDigit
    if d1.isEmpty then none else
    match t.drop d1.length with
    | c :: u =>
      if c = 'x' then
        let d2 := u.takeWhile Char.isDigit
        if d2.isEmpty then none else some (d1 ++ 'x' :: d2)
      else none
    | [] => none
  else none

/-- `format_package` from the source: try each pattern of `PACKAGE_REGEXES`
in order, return the named group of the first match, otherwise return the
input unchanged. -/
def format_package (s : String) : String :=
  match tryPattern1 s.data with
  | some v => String.mk v
  | none =>
    match tryPattern2 s.data with
    | some v => String.mk v
    | none =>
      match tryPattern3 s.data with
      | some v => String.mk v
      | none =>
        match tryPattern4 s.data with
        | some v => String.mk v
        | none => s

example : format_package "R_0402_1005Metric" = "0402" := rfl
example : format_package "SOIC-8_3.9x4.9mm_P1.27mm" = "SOIC-8" := rfl
example : format_package "Fiducial_1mm" = "Fiducial" := rfl
example : format_package "R_Array_Convex_4x0402" = "4x0402" := rfl
example : format_package "Custom_XYZ" = "Custom_XYZ" := rfl

/-- `format_value` from the source: `input.replace(micro, "u")` followed by
`.replace(ohm, "")`, where the source's literals are the MICRO SIGN U+00B5
and the OHM SIGN U+2126 (written here as the escape \u2126; the lookalike
GREEK CAPITAL OMEGA U+03A9 is not touched by the source).  Both patterns
are single characters, so the two sequential replacements are exactly a
character map (micro sign to "u") followed by a character filter (dropping
the ohm sign). -/
def format_value (s : String) : String :=
  String.mk (((s.data.map (fun c => if c = 'µ' then 'u' else c)).filter
    (fun c => c != '\u2126')))

/-- Value/Comment Normalizer as the specification words it, for comparison
with `format_value`: walk the string once; a micro sign (U+00B5) becomes
"u", an ohm sign (U+2126, the character the code removes) is dropped, every
other character — including GREEK CAPITAL OMEGA U+03A9 — is kept
unchanged. -/
def valueNormalizerSpec : List Char → List Char
  | [] => []
  | c :: rest =>
    if c = 'µ' then 'u' :: valueNormalizerSpec rest
    else if c = '\u2126' then valueNormalizerSpec rest
    else c :: valueNormalizerSpec rest

example : format_value "4µ7" = "4u7" := rfl
example : format_value "10\u2126" = "10" := rfl
example : format_value "4µ7\u2126" = "4u7" := rfl

/-- `map_layer` from the source: "top" to "T", "bottom" to "B", anything
else to "". -/
def map_layer (s : String) : String :=
  if s = "top" then "T" else if s = "bottom" then "B" else ""

example : map_layer "left" = "" := rfl

/-- Exact value of a parsed decimal: `(if sgn then -mag else mag) / 10 ^ exp`.
The sign is kept separately from the magnitude so that a parsed "-0" keeps
its sign, as Python's `float` does (it yields the IEEE negative zero, which
fixed formatting prints with a leading minus). -/
structure Dec where
  sgn : Bool
  mag : Nat
  exp : Nat
deriving DecidableEq

/-- Signed scaled numerator of a `Dec`: the represented value times
`10 ^ exp`, as an integer. -/
def Dec.num (d : Dec) : ℤ := if d.sgn then -(d.mag : ℤ) else (d.mag : ℤ)

/-- Value of an ASCII digit run, most significant first. -/
def digitsToNat (l : List Char) : Nat :=
  l.foldl (fun a c => 10 * a + (c.toNat - 48)) 0

/-- One step of reading a digit group with PEP-515 underscores, as Python's
`float` accepts them: a maximal run of digits in which a single underscore
may stand strictly between two digits.  Returns the digits with the
underscores stripped, and the unconsumed rest; an underscore that is not
both preceded and followed by a digit is left in the rest, so every
misplaced underscore surfaces as an unconsumed character and is rejected by
the caller, exactly as `float` rejects it.  Fuelled structural recursion
(the list length plus one is always enough fuel, since every step consumes
at least one character). -/
def digitGroupAux : Nat → List Char → List Char × List Char
  | 0, l => ([], l)
  | (fuel+1), l =>
    match l with
    | [] => ([], [])
    | c :: rest =>
      if c.isDigit then
        match rest with
        | '_' :: (d :: rest2) =>
          if d.isDigit then
            let p := digitGroupAux fuel (d :: rest2)
            (c :: p.1, p.2)
          else ([c], rest)
        | _ =>
          let p := digitGroupAux fuel rest
          (c :: p.1, p.2)
      else ([], l)

/-- Maximal underscore-grouped digit run at the front of `l`: the digits
(underscores stripped) and the unconsumed rest. -/
def takeDigitGroup (l : List Char) : List Char × List Char :=
  digitGroupAux (l.length + 1) l

/-- Digits of the exponent, after its optional sign: at least one
underscore-groupable digit, consuming the whole remainder. -/
def parseExpDigits (l : List Char) : Option Nat :=
  let p := takeDigitGroup l
  if p.1.isEmpty then none
  else
    match p.2 with
    | [] => some (digitsToNat p.1)
    | _ => none

/-- Exponent part of Python's `float` grammar, after the `e`/`E`: an
optional sign and at least one digit, consuming the whole remainder. -/
def parseExp (l : List Char) : Option ℤ :=
  match l with
  | '+' :: rest => (parseExpDigits rest).map (fun n => (n : ℤ))
  | '-' :: rest => (parseExpDigits rest).map (fun n => -(n : ℤ))
  | rest => (parseExpDigits rest).map (fun n => (n : ℤ))

/-- Mantissa of Python's `float` grammar: integer digits, an optional point
with further digits (either side may be empty but not both), underscores
allowed between digits.  Returns the combined digit value, the number of
fractional digits, and the unconsumed rest. -/
def parseMantissa (l : List Char) : Option (Nat × Nat × List Char) :=
  let ipp := takeDigitGroup l
  match ipp.2 with
  | '.' :: r2 =>
    let fpp := takeDigitGroup r2
    if ipp.1.isEmpty && fpp.1.isEmpty then none
    else some (digitsToNat (ipp.1 ++ fpp.1), fpp.1.length, fpp.2)
  | r1 =>
    if ipp.1.isEmpty then none else some (digitsToNat ipp.1, 0, r1)

/-- Build a `Dec` from sign, combined digits and a base-ten scale
(`value = base * 10 ^ scale`): a nonnegative scale is folded into the
magnitude, a negative one becomes the denominator exponent. -/
def mkDec (sgn : Bool) (base : Nat) (scale : ℤ) : Dec :=
  if 0 ≤ scale then ⟨sgn, base * 10 ^ scale.toNat, 0⟩
  else ⟨sgn, base, (-scale).toNat⟩

/-- Unsigned part of the `float` grammar: mantissa and optional exponent. -/
def parseCore (sgn : Bool) (l : List Char) : Option Dec :=
  match parseMantissa l with
  | none => none
  | some (base, fracLen, rest) =>
    match rest with
    | [] => some (mkDec sgn base (-(fracLen : ℤ)))
    | 'e' :: r => (parseExp r).map (fun ex => mkDec sgn base (ex - (fracLen : ℤ)))
    | 'E' :: r => (parseExp r).map (fun ex => mkDec sgn base (ex - (fracLen : ℤ)))
    | _ => none

/-- Result of Python's `float(input)`: a finite exact decimal, a signed
infinity, or NaN.  (CPython's fixed formatting prints NaN as "nan" with no
sign, so the NaN sign bit need not be tracked.) -/
inductive PyFloat where
  | finite (d : Dec)
  | inf (sgn : Bool)
  | nan
deriving DecidableEq

/-- The part of `float`'s grammar after the optional sign: the spellings
"inf", "infinity" and "nan" (ASCII case-insensitive), or a finite decimal
literal. -/
def parseSigned (sgn : Bool) (l : List Char) : Option PyFloat :=
  let low := l.map Char.toLower
  if low = "inf".data ∨ low = "infinity".data then some (PyFloat.inf sgn)
  else if low = "nan".data then some PyFloat.nan
  else (parseCore sgn l).map PyFloat.finite

/-- Python's `float(input)`: strip surrounding whitespace, an optional
sign, then an infinity/NaN spelling or digits with an optional point and an
optional exponent, with PEP-515 underscores between digits.  The decimal
value is kept exact; the rounding to the nearest IEEE double is abstracted
away (the model is exact where the binary value is exact), and `float`'s
acceptance of non-ASCII decimal digits and spaces falls under the file's
documented ASCII abstraction. -/
def parseFloat (s : String) : Option PyFloat :=
  let l := ((s.data.dropWhile Char.isWhitespace).reverse.dropWhile
    Char.isWhitespace).reverse
  match l with
  | '+' :: rest => parseSigned false rest
  | '-' :: rest => parseSigned true rest
  | rest => parseSigned false rest

/-- The finite-decimal fragment of `float`: the notion "the input parses as
a (finite) decimal number" used to state the numeric claims.  Infinity and
NaN spellings, like outright parse failures, are not finite decimals. -/
def parseDecimal (s : String) : Option Dec :=
  match parseFloat s with
  | some (PyFloat.finite d) => some d
  | _ => none

/-- Decimal digits of `n`, most significant first, via fuelled structural
recursion (`n + 1` is always enough fuel). -/
def natToDigitsAux : Nat → Nat → List Char
  | 0, _ => []
  | (fuel+1), n =>
    if n < 10 then [Nat.digitChar n]
    else natToDigitsAux fuel (n / 10) ++ [Nat.digitChar (n % 10)]

/-- Decimal rendering of a natural number, as the integer part of C-style
fixed formatting prints it. -/
def natToDigits (n : Nat) : List Char := natToDigitsAux (n + 1) n

/-- Exactly `prec` decimal digits of `m`, most significant first, zero
padded on the left: the fractional part of C-style fixed formatting. -/
def fracDigits : Nat → Nat → List Char
  | 0, _ => []
  | (k+1), m => fracDigits k (m / 10) ++ [Nat.digitChar (m % 10)]

/-- Round `n / d` (with `d > 0`) to the nearest integer, ties to even: the
rounding C-style fixed formatting applies to the (here exact) value. -/
def divRoundHalfEven (n d : Nat) : Nat :=
  let q := n / d
  let r := n % d
  if 2 * r < d then q
  else if d < 2 * r then q + 1
  else if q % 2 = 0 then q else q + 1

/-- Fixed-point formatting of a `Dec` with `prec` fractional digits, the
model of Python's fixed format specifier with precision `prec`: sign,
integer digits, point, exactly `prec` fraction digits, with the scaled
magnitude rounded half to even. -/
def formatFixed (prec : Nat) (d : Dec) : String :=
  let m := divRoundHalfEven (d.mag * 10 ^ prec) (10 ^ d.exp)
  String.mk ((if d.sgn then ['-'] else []) ++ natToDigits (m / 10 ^ prec)
    ++ '.' :: fracDigits prec (m % 10 ^ prec))

/-- Errors the row pipeline can raise, with the payload the corresponding
Python exception carries: `KeyError` holds the missing key, the
`ValueError` raised by `float` holds the offending input string. -/
inductive ConvErr where
  | keyError (key : String)
  | valueError (val : String)
deriving DecidableEq

/-- `format_position` from the source: `float(input)`, then two-fractional-
digit fixed formatting with the literal suffix "mm".  Fixed formatting of
the non-finite floats prints "inf", "-inf" or "nan", so those inputs do not
fail. -/
def format_position (s : String) : Except ConvErr String :=
  match parseFloat s with
  | some (PyFloat.finite d) => Except.ok (formatFixed 2 d ++ "mm")
  | some (PyFloat.inf sgn) =>
      Except.ok ((if sgn then "-inf" else "inf") ++ "mm")
  | some PyFloat.nan => Except.ok ("nan" ++ "mm")
  | none => Except.error (ConvErr.valueError s)

/-- Remapping step of `format_rotation`: if the parsed angle exceeds 180,
replace it by `-1 * (360 - angle)`, i.e. `angle - 360`, computed exactly in
signed-magnitude form (an angle of exactly `360` yields a negative zero,
as the source's float arithmetic does). -/
def rotRemap (d : Dec) : Dec :=
  if d.sgn = false ∧ 180 * 10 ^ d.exp < d.mag then
    if d.mag ≤ 360 * 10 ^ d.exp then ⟨true, 360 * 10 ^ d.exp - d.mag, d.exp⟩
    else ⟨false, d.mag - 360 * 10 ^ d.exp, d.exp⟩
  else d

/-- `format_rotation` from the source: `float(input)`, remap angles above
180 by subtracting 360, then one-fractional-digit fixed formatting.  An
angle of +infinity exceeds 180 and `-1 * (360 - inf)` is again +infinity;
-infinity and NaN fail the `> 180` comparison and format unchanged. -/
def format_rotation (s : String) : Except ConvErr String :=
  match parseFloat s with
  | some (PyFloat.finite d) => Except.ok (formatFixed 1 (rotRemap d))
  | some (PyFloat.inf sgn) => Except.ok (if sgn then "-inf" else "inf")
  | some PyFloat.nan => Except.ok "nan"
  | none => Except.error (ConvErr.valueError s)

example : format_position "1" = Except.ok "1.00mm" := rfl
example : format_position "-0.125" = Except.ok "-0.12mm" := rfl
example : format_position "10.5" = Except.ok "10.50mm" := rfl
example : format_position "abc" = Except.error (ConvErr.valueError "abc") := rfl
example : format_rotation "0" = Except.ok "0.0" := rfl
example : format_rotation "180" = Except.ok "180.0" := rfl
example : format_rotation "270" = Except.ok "-90.0" := rfl
example : format_rotation "359.5" = Except.ok "-0.5" := rfl
example : format_rotation "-0" = Except.ok "-0.0" := rfl
example : format_rotation "1e1" = Except.ok "10.0" := rfl
example : format_position "inf" = Except.ok "infmm" := rfl
example : format_position "-inf" = Except.ok "-infmm" := rfl
example : format_position "Infinity" = Except.ok "infmm" := rfl
example : format_position "nan" = Except.ok "nanmm" := rfl
example : format_position "-nan" = Except.ok "nanmm" := rfl
example : format_position "1_0" = Except.ok "10.00mm" := rfl
example : format_position "1_0.2_5e1_0" = Except.ok "102500000000.00mm" := rfl
example : format_position "1_" = Except.error (ConvErr.valueError "1_") := rfl
example : format_position "_1" = Except.error (ConvErr.valueError "_1") := rfl
example : format_position "1__0" = Except.error (ConvErr.valueError "1__0") := rfl
example : format_position "1_.5" = Except.error (ConvErr.valueError "1_.5") := rfl
example : format_rotation "inf" = Except.ok "inf" := rfl
example : format_rotation "-inf" = Except.ok "-inf" := rfl
example : format_rotation "nan" = Except.ok "nan" := rfl

/-- Uniform transform type of the mapping table: a Python `str -> str`
callable that may raise. -/
def Transform := String → Except ConvErr String

/-- `FIELDS_MAP` from the source, as the ordered entry list
`(neoden_field, kicad_field, optional transform)` (Python dicts preserve
insertion order, which here fixes both iteration and output column order).
The always-succeeding transforms are wrapped in `Except.ok`. -/
def FIELDS_MAP : List (String × String × Option Transform) :=
  [("Designator", "Ref", none),
   ("Footprint", "Package", some (fun s => Except.ok (format_package s))),
   ("Mid X", "PosX", some format_position),
   ("Mid Y", "PosY", some format_position),
   ("Layer", "Side", some (fun s => Except.ok (map_layer s))),
   ("Rotation", "Rot", some format_rotation),
   ("Comment", "Val", some (fun s => Except.ok (format_value s)))]

/-- A CSV row keyed by column name, as `csv.DictReader` produces it and
`transform_row` builds it: an association list in insertion order with
unique keys; `input[key]` is `List.lookup`. -/
def Row := List (String × String)

/-- The loop body's conditional transform step, `if transform_function is
not None: value = transform_function(value)`: apply the entry's transform
when present, otherwise keep the looked-up value unchanged. -/
def applyTf (tf : Option Transform) (v : String) : Except ConvErr String :=
  match tf with
  | some f => f v
  | none => Except.ok v

/-- Body of `transform_row`'s loop over a list of mapping entries: look up
the source field (a missing key raises `KeyError(source_field)`), apply the
transform if present (its exception propagates unchanged), and store the
result under the target field, preserving entry order.  The first failing
entry aborts the remaining entries, as a Python exception does. -/
def transformEntries : List (String × String × Option Transform) → Row →
    Except ConvErr Row
  | [], _ => Except.ok []
  | (tgt, src, tf) :: rest, r =>
    match r.lookup src with
    | none => Except.error (ConvErr.keyError src)
    | some v0 =>
      match applyTf tf v0 with
      | Except.error e => Except.error e
      | Except.ok v =>
        match transformEntries rest r with
        | Except.error e => Except.error e
        | Except.ok out => Except.ok ((tgt, v) :: out)

/-- `transform_row` from the source: apply `FIELDS_MAP` to one input row. -/
def transform_row (r : Row) : Except ConvErr Row :=
  transformEntries FIELDS_MAP r

/-- The ordered target field names, `FIELDS_MAP.keys()` in the source. -/
def neodenFields : List String := FIELDS_MAP.map (fun e => e.1)

/-- The source field names referenced by the mapping table, in entry
order (`kicad_fields` in the source). -/
def kicadFields : List String := FIELDS_MAP.map (fun e => e.2.1)

/-- The all-blank row `{key: "" for key in neoden_fields}` as the writer
emits it: one empty string per target field. -/
def emptyRow : List String := neodenFields.map (fun _ => "")

/-- `csv.DictWriter.writerow` on a converted row: emit the value of each
target field, in header order (every target field is present in a
`transform_row` output, so the writer's missing-key default never fires). -/
def writeRow (out : Row) : List String :=
  neodenFields.map (fun f => ((out.lookup f).getD ""))

/-- The data rows `main` streams out, paired with the error that aborted
the run, if any: rows already converted before a failure are flushed, the
failing row and everything after it are not. -/
def emitRows : List Row → List (List String) × Option ConvErr
  | [] => ([], none)
  | r :: rest =>
    match transform_row r with
    | Except.error e => ([], some e)
    | Except.ok out =>
      let p := emitRows rest
      (writeRow out :: p.1, p.2)

/-- Everything `main` writes, as a list of delimited rows: the header, the
all-blank marker row, then the converted data rows (up to the first
failure, whose error is returned alongside). -/
def mainOutput (rows : List Row) : List (List String) × Option ConvErr :=
  let p := emitRows rows
  (neodenFields :: emptyRow :: p.1, p.2)

example :
    transform_row [("Ref", "R1"), ("Package", "R_0402_1005Metric"),
      ("PosX", "10.5"), ("PosY", "20.25"), ("Side", "top"), ("Rot", "90"),
      ("Val", "4µ7")] =
    Except.ok [("Designator", "R1"), ("Footprint", "0402"),
      ("Mid X", "10.50mm"), ("Mid Y", "20.25mm"), ("Layer", "T"),
      ("Rotation", "90.0"), ("Comment", "4u7")] := rfl

example :
    mainOutput [[("Ref", "R1"), ("Package", "R_0402_1005Metric"),
        ("PosX", "10.5"), ("PosY", "20.25"), ("Side", "top"), ("Rot", "90"),
        ("Val", "4µ7")],
      [("Ref", "C1"), ("Package", "Fiducial_1mm"), ("PosX", "0"),
        ("PosY", "0"), ("Side", "bottom"), ("Rot", "270"), ("Val", "10\u2126")]] =
    ([["Designator", "Footprint", "Mid X", "Mid Y", "Layer", "Rotation",
        "Comment"],
      ["", "", "", "", "", "", ""],
      ["R1", "0402", "10.50mm", "20.25mm", "T", "90.0", "4u7"],
      ["C1", "Fiducial", "0.00mm", "0.00mm", "B", "-90.0", "10"]],
     none) := rfl

example :
    transform_row [("Ref", "R1"), ("Package", "P"), ("PosX", "abc"),
      ("PosY", "1"), ("Side", "top"), ("Val", "v")] =
    Except.error (ConvErr.valueError "abc") := rfl

/-- Whether a pipeline result is the Missing-Field failure (Python's
`KeyError`), as opposed to success or a transform failure. -/
def isKeyError {α : Type} : Except ConvErr α → Bool
  | Except.error (ConvErr.keyError _) => true
  | _ => false

lemma filterMap_eq_valueNormalizerSpec (l : List Char) :
    ((l.map (fun c => if c = 'µ' then 'u' else c)).filter (fun c => c != '\u2126'))
      = valueNormalizerSpec l := by
  induction l with
  | nil => rfl
  | cons c rest ih =>
    by_cases h1 : c = 'µ'
    · subst h1
      simp [valueNormalizerSpec, List.filter, ih]
    · by_cases h2 : c = '\u2126'
      · subst h2
        simp [valueNormalizerSpec, List.filter, ih]
      · have hb : (c != '\u2126') = true := by simp [bne_iff_ne, h2]
        simp [valueNormalizerSpec, h1, h2, List.filter, hb, ih]

lemma parseDecimal_eq_some (s : String) (d : Dec)
    (h : parseDecimal s = some d) : parseFloat s = some (PyFloat.finite d) := by
  simp only [parseDecimal] at h
  split at h
  · rename_i d2 hq
    injection h with h2
    subst h2
    exact hq
  · cases h

lemma format_position_no_keyError (s : String) :
    isKeyError (format_position s) = false := by
  cases hp : parseFloat s with
  | none => simp [format_position, hp, isKeyError]
  | some v => cases v <;> simp [format_position, hp, isKeyError]

lemma format_rotation_no_keyError (s : String) :
    isKeyError (format_rotation s) = false := by
  cases hp : parseFloat s with
  | none => simp [format_rotation, hp, isKeyError]
  | some v => cases v <;> simp [format_rotation, hp, isKeyError]

lemma digitChar_isDigit (n : Nat) (h : n < 10) :
    (Nat.digitChar n).isDigit = true := by
  interval_cases n <;> decide

lemma formatFixed_two_digits (d : Dec) :
    ∃ l c₁ c₂, (formatFixed 2 d).data = l ++ ['.', c₁, c₂]
      ∧ c₁.isDigit = true ∧ c₂.isDigit = true := by
  refine ⟨(if d.sgn then ['-'] else [])
      ++ natToDigits (divRoundHalfEven (d.mag * 10 ^ 2) (10 ^ d.exp) / 10 ^ 2),
    Nat.digitChar (divRoundHalfEven (d.mag * 10 ^ 2) (10 ^ d.exp) % 10 ^ 2 / 10 % 10),
    Nat.digitChar (divRoundHalfEven (d.mag * 10 ^ 2) (10 ^ d.exp) % 10 ^ 2 % 10),
    ?_, ?_, ?_⟩
  · simp [formatFixed, fracDigits, List.append_assoc]
  · exact digitChar_isDigit _ (Nat.mod_lt _ (by norm_num))
  · exact digitChar_isDigit _ (Nat.mod_lt _ (by norm_num))

lemma formatFixed_one_digit (d : Dec) :
    ∃ l c, (formatFixed 1 d).data = l ++ ['.', c] ∧ c.isDigit = true := by
  refine ⟨(if d.sgn then ['-'] else [])
      ++ natToDigits (divRoundHalfEven (d.mag * 10 ^ 1) (10 ^ d.exp) / 10 ^ 1),
    Nat.digitChar (divRoundHalfEven (d.mag * 10 ^ 1) (10 ^ d.exp) % 10 ^ 1 % 10),
    ?_, ?_⟩
  · simp [formatFixed, fracDigits, List.append_assoc]
  · exact digitChar_isDigit _ (Nat.mod_lt _ (by norm_num))

/-- Claim C2: `format_package` tries the four patterns of `PACKAGE_REGEXES`
in their fixed priority order and returns the named capture group of the
first pattern that matches; if no pattern matches it returns the input
unchanged.  In particular "R_0402_1005Metric" maps to "0402",
"SOIC-8_3.9x4.9mm_P1.27mm" to "SOIC-8", "Fiducial_1mm" to "Fiducial",
"R_Array_Convex_4x0402" to "4x0402", and "Custom_XYZ" to itself. -/
theorem format_package_priority :
    format_package "R_0402_1005Metric" = "0402"
    ∧ format_package "SOIC-8_3.9x4.9mm_P1.27mm" = "SOIC-8"
    ∧ format_package "Fiducial_1mm" = "Fiducial"
    ∧ format_package "R_Array_Convex_4x0402" = "4x0402"
    ∧ format_package "Custom_XYZ" = "Custom_XYZ"
    ∧ (∀ s v, tryPattern1 s.data = some v → format_package s = String.mk v)
    ∧ (∀ s v, tryPattern1 s.data = none → tryPattern2 s.data = some v →
        format_package s = String.mk v)
    ∧ (∀ s v, tryPattern1 s.data = none → tryPattern2 s.data = none →
        tryPattern3 s.data = some v → format_package s = String.mk v)
    ∧ (∀ s v, tryPattern1 s.data = none → tryPattern2 s.data = none →
        tryPattern3 s.data = none → tryPattern4 s.data = some v →
        format_package s = String.mk v)
    ∧ (∀ s, tryPattern1 s.data = none → tryPattern2 s.data = none →
        tryPattern3 s.data = none → tryPattern4 s.data = none →
        format_package s = s) := by
  refine ⟨rfl, rfl, rfl, rfl, rfl, ?_, ?_, ?_, ?_, ?_⟩
  · intro s v h1
    simp [format_package, h1]
  · intro s v h1 h2
    simp [format_package, h1, h2]
  · intro s v h1 h2 h3
    simp [format_package, h1, h2, h3]
  · intro s v h1 h2 h3 h4
    simp [format_package, h1, h2, h3, h4]
  · intro s h1 h2 h3 h4
    simp [format_package, h1, h2, h3, h4]

theorem format_package_priority_witness :
    format_package "Custom_XYZ" = "Custom_XYZ" :=
  format_package_priority.2.2.2.2.2.2.2.2.2 "Custom_XYZ" rfl rfl rfl rfl

/-- Claim C5 counterexample: inputs that are not decimal numerals but that
Python's `float` accepts — the infinity and NaN spellings — do not fail
with a numeric-parse error, and their outputs carry no two-fractional-digit
decimal: the program returns "infmm" and "nanmm". -/
theorem format_position_inf_cex :
    format_position "inf" = Except.ok "infmm"
    ∧ format_position "nan" = Except.ok "nanmm"
    ∧ format_position "inf" ≠ Except.error (ConvErr.valueError "inf") := by
  refine ⟨rfl, rfl, ?_⟩
  intro hcontra
  have h2 : Except.ok (ε := ConvErr) "infmm"
      = Except.error (ConvErr.valueError "inf") := by
    rw [← hcontra]
    rfl
  exact Except.noConfusion h2

/-- Claim C5 (amended): on every input that parses as a finite decimal
(underscore-grouped digit literals included), `format_position` returns the
number in fixed-point form with exactly two fractional digits and the
literal suffix "mm" ("1" yields "1.00mm", "1_0" yields "10.00mm"); inputs
`float` accepts as infinities or NaN do not fail and format as "infmm",
"-infmm" or "nanmm"; and exactly the inputs `float` rejects fail with the
numeric-parse error carrying that input. -/
theorem format_position_formats :
    (∀ s d, parseDecimal s = some d →
      format_position s = Except.ok (formatFixed 2 d ++ "mm")
      ∧ ∃ l c₁ c₂, (formatFixed 2 d).data = l ++ ['.', c₁, c₂]
          ∧ c₁.isDigit = true ∧ c₂.isDigit = true)
    ∧ (∀ s sgn, parseFloat s = some (PyFloat.inf sgn) →
        format_position s = Except.ok ((if sgn then "-inf" else "inf") ++ "mm"))
    ∧ (∀ s, parseFloat s = some PyFloat.nan →
        format_position s = Except.ok "nanmm")
    ∧ (∀ s, parseFloat s = none →
        format_position s = Except.error (ConvErr.valueError s))
    ∧ format_position "1" = Except.ok "1.00mm"
    ∧ format_position "1_0" = Except.ok "10.00mm" := by
  refine ⟨?_, ?_, ?_, ?_, rfl, rfl⟩
  · intro s d h
    exact ⟨by simp [format_position, parseDecimal_eq_some s d h],
      formatFixed_two_digits d⟩
  · intro s sgn h
    simp [format_position, h]
  · intro s h
    simp [format_position, h]
  · intro s h
    simp [format_position, h]

theorem format_position_formats_witness :
    format_position "1" = Except.ok (formatFixed 2 ⟨false, 1, 0⟩ ++ "mm")
    ∧ format_position "x1" = Except.error (ConvErr.valueError "x1")
    ∧ format_position "inf" = Except.ok ((if false then "-inf" else "inf") ++ "mm") :=
  ⟨(format_position_formats.1 "1" ⟨false, 1, 0⟩ rfl).1,
    format_position_formats.2.2.2.1 "x1" rfl,
    format_position_formats.2.1 "inf" false rfl⟩

/-- Claim C6: `map_layer` sends exactly "top" to "T", exactly "bottom" to
"B", and every other string to the empty string, never failing (it is a
total function). -/
theorem map_layer_total :
    map_layer "top" = "T" ∧ map_layer "bottom" = "B"
    ∧ ∀ s : String, s ≠ "top" → s ≠ "bottom" → map_layer s = "" := by
  refine ⟨rfl, rfl, ?_⟩
  intro s h1 h2
  simp [map_layer, h1, h2]

theorem map_layer_total_witness : map_layer "left" = "" :=
  map_layer_total.2.2 "left" (by decide) (by decide)

/-- Claim C7 counterexample: the source removes the OHM SIGN U+2126, not
the GREEK CAPITAL OMEGA U+03A9 that the claim's example strings are written
with, so the program leaves the claim's examples unchanged where the claim
expects the omega character dropped ("10" and "4u7"). -/
theorem format_value_omega_cex :
    format_value "10\u03A9" = "10\u03A9"
    ∧ format_value "10\u03A9" ≠ "10"
    ∧ format_value "4µ7\u03A9" = "4u7\u03A9"
    ∧ format_value "4µ7\u03A9" ≠ "4u7" := by
  refine ⟨rfl, by decide, rfl, by decide⟩

/-- Claim C7 (amended): `format_value` replaces every occurrence of the
micro sign (U+00B5) by "u", removes every occurrence of the ohm sign
(U+2126), and changes nothing else — it agrees with the
character-by-character normalizer `valueNormalizerSpec` on every string; in
particular "4µ7" maps to "4u7", and with the ohm sign written as U+2126 the
claimed example mappings hold (to "10" and "4u7"), while the lookalike
GREEK CAPITAL OMEGA U+03A9 used in the claim's examples is left
unchanged. -/
theorem format_value_normalizes :
    (∀ s : String, (format_value s).data = valueNormalizerSpec s.data)
    ∧ format_value "4µ7" = "4u7"
    ∧ format_value "10\u2126" = "10"
    ∧ format_value "4µ7\u2126" = "4u7"
    ∧ format_value "10\u03A9" = "10\u03A9" := by
  refine ⟨?_, rfl, rfl, rfl, rfl⟩
  intro s
  simp [format_value]
  exact filterMap_eq_valueNormalizerSpec s.data

/-- Claim C3: on every input parsing as a decimal angle in [0, 360),
`format_rotation` outputs the angle with exactly one fractional digit,
remapping any parsed angle strictly greater than 180 to `angle - 360`
(stated on the exact scaled numerator `Dec.num`), so the represented angle
lies in (-180, 180]; in particular "0" maps to "0.0", "180" to "180.0",
"270" to "-90.0" and "359.5" to "-0.5". -/
theorem format_rotation_normalizes :
    (∀ s d, parseDecimal s = some d → d.sgn = false →
      d.mag < 360 * 10 ^ d.exp →
      format_rotation s = Except.ok (formatFixed 1 (rotRemap d))
      ∧ (rotRemap d).exp = d.exp
      ∧ Dec.num (rotRemap d) =
          (if 180 * 10 ^ d.exp < d.mag then
            (d.mag : ℤ) - ((360 * 10 ^ d.exp : ℕ) : ℤ)
           else (d.mag : ℤ))
      ∧ -((180 * 10 ^ d.exp : ℕ) : ℤ) < Dec.num (rotRemap d)
      ∧ Dec.num (rotRemap d) ≤ ((180 * 10 ^ d.exp : ℕ) : ℤ)
      ∧ ∃ l c, (formatFixed 1 (rotRemap d)).data = l ++ ['.', c]
          ∧ c.isDigit = true)
    ∧ format_rotation "0" = Except.ok "0.0"
    ∧ format_rotation "180" = Except.ok "180.0"
    ∧ format_rotation "270" = Except.ok "-90.0"
    ∧ format_rotation "359.5" = Except.ok "-0.5" := by
  refine ⟨?_, rfl, rfl, rfl, rfl⟩
  intro s d hp hs hm
  have hP : 0 < 10 ^ d.exp := pow_pos (by norm_num) d.exp
  by_cases h : 180 * 10 ^ d.exp < d.mag
  · have hle : d.mag ≤ 360 * 10 ^ d.exp := Nat.le_of_lt hm
    have hr : rotRemap d = ⟨true, 360 * 10 ^ d.exp - d.mag, d.exp⟩ := by
      simp [rotRemap, hs, h, hle]
    refine ⟨by simp [format_rotation, parseDecimal_eq_some s d hp],
      by rw [hr], ?_, ?_, ?_, formatFixed_one_digit _⟩
    · rw [hr, if_pos h]
      simp only [Dec.num, if_true]
      omega
    · rw [hr]
      simp only [Dec.num, if_true]
      omega
    · rw [hr]
      simp only [Dec.num, if_true]
      omega
  · have hr : rotRemap d = d := by
      simp [rotRemap, hs, h]
    refine ⟨by simp [format_rotation, parseDecimal_eq_some s d hp],
      by rw [hr], ?_, ?_, ?_, formatFixed_one_digit _⟩
    · rw [hr, if_neg h]
      simp [Dec.num, hs]
    · rw [hr]
      simp only [Dec.num, hs, Bool.false_eq_true, if_false]
      omega
    · rw [hr]
      simp only [Dec.num, hs, Bool.false_eq_true, if_false]
      omega

theorem format_rotation_normalizes_witness :
    format_rotation "359.5" = Except.ok (formatFixed 1 (rotRemap ⟨false, 3595, 1⟩))
    ∧ format_rotation "359.5" = Except.ok "-0.5" :=
  ⟨(format_rotation_normalizes.1 "359.5" ⟨false, 3595, 1⟩ rfl rfl
      (by norm_num)).1,
    format_rotation_normalizes.2.2.2.2⟩

/-- Claim C1: on every input row carrying all seven mapped source fields
whose numeric fields parse, `transform_row` succeeds and produces exactly
one output value per mapping-table entry — seven fields — in the fixed
order Designator, Footprint, Mid X, Mid Y, Layer, Rotation, Comment, each
value being the source value with the entry's transform applied when one is
present. -/
theorem transform_row_complete :
    ∀ (r : Row) ref pkg px py side rot val (dx dy dr : Dec),
      r.lookup "Ref" = some ref → r.lookup "Package" = some pkg →
      r.lookup "PosX" = some px → r.lookup "PosY" = some py →
      r.lookup "Side" = some side → r.lookup "Rot" = some rot →
      r.lookup "Val" = some val →
      parseDecimal px = some dx → parseDecimal py = some dy →
      parseDecimal rot = some dr →
      transform_row r = Except.ok
        [("Designator", ref), ("Footprint", format_package pkg),
         ("Mid X", formatFixed 2 dx ++ "mm"),
         ("Mid Y", formatFixed 2 dy ++ "mm"),
         ("Layer", map_layer side),
         ("Rotation", formatFixed 1 (rotRemap dr)),
         ("Comment", format_value val)] := by
  intro r ref pkg px py side rot val dx dy dr h1 h2 h3 h4 h5 h6 h7 hx hy hr
  simp [transform_row, FIELDS_MAP, transformEntries, applyTf, h1, h2, h3, h4,
    h5, h6, h7, format_position, format_rotation,
    parseDecimal_eq_some px dx hx, parseDecimal_eq_some py dy hy,
    parseDecimal_eq_some rot dr hr]

theorem transform_row_complete_witness :
    transform_row [("Ref", "R1"), ("Package", "R_0402_1005Metric"),
      ("PosX", "10.5"), ("PosY", "20.25"), ("Side", "top"), ("Rot", "90"),
      ("Val", "4µ7")]
    = Except.ok [("Designator", "R1"), ("Footprint", "0402"),
      ("Mid X", "10.50mm"), ("Mid Y", "20.25mm"), ("Layer", "T"),
      ("Rotation", "90.0"), ("Comment", "4u7")] :=
  (transform_row_complete
    [("Ref", "R1"), ("Package", "R_0402_1005Metric"), ("PosX", "10.5"),
      ("PosY", "20.25"), ("Side", "top"), ("Rot", "90"), ("Val", "4µ7")]
    "R1" "R_0402_1005Metric" "10.5" "20.25" "top"
    "90" "4µ7" ⟨false, 105, 1⟩ ⟨false, 2025, 2⟩ ⟨false, 90, 0⟩
    rfl rfl rfl rfl rfl rfl rfl rfl rfl rfl).trans (by rfl)

lemma transformEntries_ext (entries : List (String × String × Option Transform))
    (r1 r2 : Row) (h : ∀ e ∈ entries, r1.lookup e.2.1 = r2.lookup e.2.1) :
    transformEntries entries r1 = transformEntries entries r2 := by
  induction entries with
  | nil => rfl
  | cons e rest ih =>
    obtain ⟨tgt, src, tf⟩ := e
    have he : r1.lookup src = r2.lookup src := h _ (List.mem_cons_self _ _)
    have ih2 := ih (fun e hm => h e (List.mem_cons_of_mem _ hm))
    simp only [transformEntries]
    rw [he, ih2]

/-- Claim C10: the output of `transform_row` depends only on the values of
the seven mapped source fields — two input rows agreeing on Ref, Package,
PosX, PosY, Side, Rot and Val convert identically, so extra fields have no
effect. -/
theorem transform_row_depends_only_on_mapped_fields :
    ∀ r1 r2 : Row,
      r1.lookup "Ref" = r2.lookup "Ref" →
      r1.lookup "Package" = r2.lookup "Package" →
      r1.lookup "PosX" = r2.lookup "PosX" →
      r1.lookup "PosY" = r2.lookup "PosY" →
      r1.lookup "Side" = r2.lookup "Side" →
      r1.lookup "Rot" = r2.lookup "Rot" →
      r1.lookup "Val" = r2.lookup "Val" →
      transform_row r1 = transform_row r2 := by
  intro r1 r2 h1 h2 h3 h4 h5 h6 h7
  apply transformEntries_ext
  intro e he
  simp only [FIELDS_MAP, List.mem_cons, List.not_mem_nil, or_false] at he
  rcases he with rfl | rfl | rfl | rfl | rfl | rfl | rfl <;> assumption

theorem transform_row_depends_witness :
    transform_row [("Ref", "R1"), ("Package", "R_0402_1005Metric"),
      ("PosX", "10.5"), ("PosY", "20.25"), ("Side", "top"), ("Rot", "90"),
      ("Val", "4µ7")]
    = transform_row [("Ref", "R1"), ("Package", "R_0402_1005Metric"),
      ("PosX", "10.5"), ("PosY", "20.25"), ("Side", "top"), ("Rot", "90"),
      ("Val", "4µ7"), ("Extra", "ignored")] :=
  transform_row_depends_only_on_mapped_fields _ _ rfl rfl rfl rfl rfl rfl rfl

lemma emitRows_ok (rows outs : List Row)
    (h : List.Forall₂ (fun r out => transform_row r = Except.ok out) rows outs) :
    emitRows rows = (outs.map writeRow, none) := by
  induction h with
  | nil => rfl
  | cons h1 h2 ih => simp [emitRows, h1, ih]

/-- Claim C4: when every input row converts, the emitted output is the
header row with the ordered target field names, then exactly one all-empty
row of the same column count, then exactly one data row per input row in
the same relative order (and no error). -/
theorem main_output_layout :
    ∀ rows outs : List Row,
      List.Forall₂ (fun r out => transform_row r = Except.ok out) rows outs →
      mainOutput rows =
        (["Designator", "Footprint", "Mid X", "Mid Y", "Layer", "Rotation",
            "Comment"]
          :: ["", "", "", "", "", "", ""]
          :: outs.map writeRow, none)
      ∧ (outs.map writeRow).length = rows.length := by
  intro rows outs h
  have he := emitRows_ok rows outs h
  constructor
  · simp [mainOutput, he, neodenFields, emptyRow, FIELDS_MAP]
  · rw [List.length_map]
    exact h.length_eq.symm

theorem main_output_layout_witness :
    mainOutput [[("Ref", "R1"), ("Package", "R_0402_1005Metric"),
        ("PosX", "10.5"), ("PosY", "20.25"), ("Side", "top"), ("Rot", "90"),
        ("Val", "4µ7")],
      [("Ref", "C1"), ("Package", "Fiducial_1mm"), ("PosX", "0"),
        ("PosY", "0"), ("Side", "bottom"), ("Rot", "270"), ("Val", "10\u2126")]] =
    ([["Designator", "Footprint", "Mid X", "Mid Y", "Layer", "Rotation",
        "Comment"],
      ["", "", "", "", "", "", ""],
      ["R1", "0402", "10.50mm", "20.25mm", "T", "90.0", "4u7"],
      ["C1", "Fiducial", "0.00mm", "0.00mm", "B", "-90.0", "10"]],
     none) :=
  ((main_output_layout
      [[("Ref", "R1"), ("Package", "R_0402_1005Metric"), ("PosX", "10.5"),
        ("PosY", "20.25"), ("Side", "top"), ("Rot", "90"), ("Val", "4µ7")],
       [("Ref", "C1"), ("Package", "Fiducial_1mm"), ("PosX", "0"),
        ("PosY", "0"), ("Side", "bottom"), ("Rot", "270"), ("Val", "10\u2126")]]
      [[("Designator", "R1"), ("Footprint", "0402"), ("Mid X", "10.50mm"),
        ("Mid Y", "20.25mm"), ("Layer", "T"), ("Rotation", "90.0"),
        ("Comment", "4u7")],
       [("Designator", "C1"), ("Footprint", "Fiducial"), ("Mid X", "0.00mm"),
        ("Mid Y", "0.00mm"), ("Layer", "B"), ("Rotation", "-90.0"),
        ("Comment", "10")]]
      (List.Forall₂.cons rfl (List.Forall₂.cons rfl List.Forall₂.nil))).1).trans
    (by rfl)

lemma applyTf_no_keyError (tf : Option Transform) (v : String)
    (htf : ∀ f, tf = some f → ∀ s, isKeyError (f s) = false) :
    ∀ k, applyTf tf v ≠ Except.error (ConvErr.keyError k) := by
  intro k h
  cases tf with
  | none => simp [applyTf] at h
  | some f =>
    have hkf := htf f rfl v
    rw [show applyTf (some f) v = f v from rfl] at h
    rw [h] at hkf
    simp [isKeyError] at hkf

lemma transformEntries_keyError :
    ∀ (entries : List (String × String × Option Transform)) (r : Row)
      (k : String),
      (∀ e ∈ entries, ∀ f, e.2.2 = some f → ∀ s, isKeyError (f s) = false) →
      transformEntries entries r = Except.error (ConvErr.keyError k) →
      k ∈ entries.map (fun e => e.2.1) ∧ r.lookup k = none := by
  intro entries
  induction entries with
  | nil =>
    intro r k htf h
    cases h
  | cons e0 rest ih =>
    obtain ⟨tgt, src, tf⟩ := e0
    intro r k htf h
    simp only [transformEntries] at h
    split at h
    · rename_i hl
      injection h with h2
      injection h2 with h3
      subst h3
      exact ⟨by simp, hl⟩
    · rename_i v0 hl
      split at h
      · rename_i e2 htr
        injection h with h2
        subst h2
        exact absurd htr (applyTf_no_keyError tf v0
          (fun f hf s => htf (tgt, src, tf) (List.mem_cons_self _ _) f hf s) k)
      · rename_i v htr
        split at h
        · rename_i e3 hrest
          injection h with h2
          subst h2
          have hrec := ih r k (fun e hm f hf s => htf e
            (List.mem_cons_of_mem _ hm) f hf s) hrest
          exact ⟨by simpa using Or.inr hrec.1, hrec.2⟩
        · cases h

lemma fields_map_no_keyError :
    ∀ e ∈ FIELDS_MAP, ∀ f, e.2.2 = some f → ∀ s, isKeyError (f s) = false := by
  intro e he f hf s
  simp only [FIELDS_MAP, List.mem_cons, List.not_mem_nil, or_false] at he
  rcases he with rfl | rfl | rfl | rfl | rfl | rfl | rfl
  · cases hf
  · injection hf with h2
    subst h2
    rfl
  · injection hf with h2
    subst h2
    exact format_position_no_keyError s
  · injection hf with h2
    subst h2
    exact format_position_no_keyError s
  · injection hf with h2
    subst h2
    rfl
  · injection hf with h2
    subst h2
    exact format_rotation_no_keyError s
  · injection hf with h2
    subst h2
    rfl

lemma transformEntries_ok_lookup :
    ∀ (entries : List (String × String × Option Transform)) (r : Row) out,
      transformEntries entries r = Except.ok out →
      ∀ e ∈ entries, (r.lookup e.2.1).isSome = true := by
  intro entries
  induction entries with
  | nil =>
    intro r out h e he
    exact absurd he (List.not_mem_nil e)
  | cons e0 rest ih =>
    obtain ⟨tgt, src, tf⟩ := e0
    intro r out h e he
    simp only [transformEntries] at h
    split at h
    · cases h
    · rename_i v0 hl
      split at h
      · cases h
      · rename_i v htr
        split at h
        · cases h
        · rename_i out2 hrest
          rcases List.mem_cons.mp he with rfl | hm
          · simp [hl]
          · exact ih r out2 hrest e hm

/-- Claim C9 counterexample: a row in which the referenced source field
"Rot" is absent, yet `transform_row` does not fail with a Missing-Field
error — the earlier "Mid X" entry's transform fails first on the malformed
"PosX" value, and that value error is what propagates.  This falsifies the
claimed equivalence "fails with Missing-Field iff some referenced source
field is absent". -/
theorem transform_row_missing_iff_cex :
    "Rot" ∈ kicadFields
    ∧ List.lookup "Rot" ([("Ref", "R1"), ("Package", "P"), ("PosX", "abc"),
        ("PosY", "1"), ("Side", "top"), ("Val", "v")]
          : List (String × String)) = none
    ∧ transform_row [("Ref", "R1"), ("Package", "P"), ("PosX", "abc"),
        ("PosY", "1"), ("Side", "top"), ("Val", "v")]
      = Except.error (ConvErr.valueError "abc")
    ∧ isKeyError (transform_row [("Ref", "R1"), ("Package", "P"),
        ("PosX", "abc"), ("PosY", "1"), ("Side", "top"), ("Val", "v")])
      = false := by
  refine ⟨?_, rfl, rfl, rfl⟩
  simp [kicadFields, FIELDS_MAP]

/-- Claim C9 (amended): `transform_row` fails with a Missing-Field error
only for a source field referenced by the mapping table that is absent from
the input row; a successful conversion implies every referenced source
field is present (equivalently, a row missing a referenced field never
converts successfully — though the failure actually raised can be an
earlier entry's transform failure instead of the Missing-Field error); and
a failing value transform's error propagates unchanged, carrying the
offending value, not tagged with the target field name. -/
theorem transform_row_error_characterization :
    (∀ (r : Row) k, transform_row r = Except.error (ConvErr.keyError k) →
      k ∈ kicadFields ∧ r.lookup k = none)
    ∧ (∀ (r : Row) out, transform_row r = Except.ok out →
        ∀ k ∈ kicadFields, (r.lookup k).isSome = true)
    ∧ (∀ (r : Row), (∃ k ∈ kicadFields, r.lookup k = none) →
        ∀ out, transform_row r ≠ Except.ok out)
    ∧ (∀ (r : Row) ref pkg x, r.lookup "Ref" = some ref →
        r.lookup "Package" = some pkg → r.lookup "PosX" = some x →
        parseFloat x = none →
        transform_row r = Except.error (ConvErr.valueError x)) := by
  have hok : ∀ (r : Row) out, transform_row r = Except.ok out →
      ∀ k ∈ kicadFields, (r.lookup k).isSome = true := by
    intro r out h k hk
    simp only [kicadFields, List.mem_map] at hk
    obtain ⟨e, he, rfl⟩ := hk
    exact transformEntries_ok_lookup FIELDS_MAP r out h e he
  refine ⟨?_, hok, ?_, ?_⟩
  · intro r k h
    exact transformEntries_keyError FIELDS_MAP r k fields_map_no_keyError h
  · intro r hk out h
    obtain ⟨k, hkmem, hnone⟩ := hk
    have := hok r out h k hkmem
    rw [hnone] at this
    cases this
  · intro r ref pkg x h1 h2 h3 hx
    simp [transform_row, FIELDS_MAP, transformEntries, applyTf, h1, h2, h3,
      format_position, hx]

theorem transform_row_error_characterization_witness :
    transform_row [("Ref", "R1"), ("Package", "P"), ("PosX", "abc"),
      ("PosY", "5"), ("Side", "top"), ("Rot", "90"), ("Val", "v")]
      = Except.error (ConvErr.valueError "abc") :=
  transform_row_error_characterization.2.2.2
    [("Ref", "R1"), ("Package", "P"), ("PosX", "abc"), ("PosY", "5"),
      ("Side", "top"), ("Rot", "90"), ("Val", "v")]
    "R1" "P" "abc" rfl rfl rfl rfl

lemma matchNumTail_some (t v : List Char) (h : matchNumTail t = some v) :
    v ≠ [] ∧ ∀ c ∈ v, c.isDigit = true := by
  simp only [matchNumTail] at h
  split at h
  · cases h
  · rename_i he
    split at h
    · rename_i c u hdrop
      split at h
      · split at h
        · cases h
        · split at h
          · injection h with h2
            subst h2
            refine ⟨?_, fun c2 hc2 => List.mem_takeWhile_imp hc2⟩
            intro hnil
            exact he (by rw [hnil]; rfl)
          · cases h
      · cases h
    · cases h

lemma p1Loop_some (s v : List Char) :
    ∀ n, p1Loop s n = some v → ∃ t, matchNumTail t = some v := by
  intro n
  induction n with
  | zero =>
    intro h
    cases h
  | succ k ih =>
    intro h
    simp only [p1Loop] at h
    split at h
    · split at h
      · rename_i w hm
        injection h with h2
        subst h2
        exact ⟨_, hm⟩
      · exact ih h
    · exact ih h

lemma p1Loop_none (s : List Char) (h : '_' ∉ s) : ∀ n, p1Loop s n = none := by
  intro n
  induction n with
  | zero => rfl
  | succ k ih =>
    have hg : ¬ s.get? (k+1) = some '_' := by
      intro hc
      exact h (List.get?_mem hc)
    simp only [p1Loop]
    rw [if_neg hg]
    exact ih

lemma tryPattern1_some (s v : List Char) (h : tryPattern1 s = some v) :
    v ≠ [] ∧ ∀ c ∈ v, c.isDigit = true := by
  obtain ⟨t, ht⟩ := p1Loop_some s v _ h
  exact matchNumTail_some t v ht

lemma tryPattern1_none (s : List Char) (h : '_' ∉ s) : tryPattern1 s = none :=
  p1Loop_none s h _

lemma tryPattern2_some (s v : List Char) (h : tryPattern2 s = some v) :
    v = "SOIC-8".data := by
  simp only [tryPattern2] at h
  split at h
  · injection h with h2
    exact h2.symm
  · cases h

lemma tryPattern3_some (s v : List Char) (h : tryPattern3 s = some v) :
    v = "Fiducial".data := by
  simp only [tryPattern3] at h
  split at h
  · injection h with h2
    exact h2.symm
  · cases h

lemma tryPattern4_some (s v : List Char) (h : tryPattern4 s = some v) :
    ∃ c rest, v = c :: rest ∧ c.isDigit = true
      ∧ ∀ x ∈ v, x.isDigit = true ∨ x = 'x' := by
  simp only [tryPattern4] at h
  split at h
  · split at h
    · cases h
    · rename_i he
      split at h
      · rename_i c u hdrop
        split at h
        · split at h
          · cases h
          · rename_i he2
            injection h with h2
            obtain ⟨c1, d1rest, hd1⟩ :
                ∃ c1 rest1, (s.drop 15).takeWhile Char.isDigit = c1 :: rest1 := by
              cases hl : (s.drop 15).takeWhile Char.isDigit with
              | nil => exact absurd (by rw [hl]; rfl) he
              | cons a b => exact ⟨a, b, rfl⟩
            have hmem1 : ∀ x ∈ (s.drop 15).takeWhile Char.isDigit,
                x.isDigit = true := fun x hx => List.mem_takeWhile_imp hx
            refine ⟨c1, d1rest ++ 'x' :: u.takeWhile Char.isDigit,
              by rw [← h2, hd1]; rfl, ?_, ?_⟩
            · exact hmem1 c1 (by rw [hd1]; exact List.mem_cons_self _ _)
            · intro x hx
              rw [← h2] at hx
              rcases List.mem_append.mp hx with hx1 | hx2
              · exact Or.inl (hmem1 x hx1)
              · rcases List.mem_cons.mp hx2 with rfl | hx3
                · exact Or.inr rfl
                · exact Or.inl (List.mem_takeWhile_imp hx3)
        · cases h
      · cases h
  · cases h

lemma not_isPrefixOf_of_head_ne (a b : Char) (la lb : List Char)
    (h : ¬ a = b) : (a :: la).isPrefixOf (b :: lb) = false := by
  simp [List.isPrefixOf, h]

lemma format_package_fixed (c : Char) (rest : List Char)
    (hc : c.isDigit = true)
    (hall : ∀ x ∈ c :: rest, x.isDigit = true ∨ x = 'x') :
    format_package (String.mk (c :: rest)) = String.mk (c :: rest) := by
  have hu : '_' ∉ (String.mk (c :: rest)).data := by
    intro hm
    rcases hall _ hm with hd | hx
    · exact absurd hd (by decide)
    · exact absurd hx (by decide)
  have hcS : ¬ ('S' : Char) = c := by
    intro hh
    rw [← hh] at hc
    exact absurd hc (by decide)
  have hcF : ¬ ('F' : Char) = c := by
    intro hh
    rw [← hh] at hc
    exact absurd hc (by decide)
  have hcR : ¬ ('R' : Char) = c := by
    intro hh
    rw [← hh] at hc
    exact absurd hc (by decide)
  have h1 : tryPattern1 (String.mk (c :: rest)).data = none :=
    tryPattern1_none _ hu
  have e2 : "SOIC-8".data = 'S' :: "OIC-8".data := rfl
  have h2 : tryPattern2 (String.mk (c :: rest)).data = none := by
    have hp : ("SOIC-8".data).isPrefixOf (c :: rest) = false := by
      rw [e2]
      exact not_isPrefixOf_of_head_ne _ _ _ _ hcS
    simp [tryPattern2, hp]
  have e3 : "Fiducial_".data = 'F' :: "iducial_".data := rfl
  have h3 : tryPattern3 (String.mk (c :: rest)).data = none := by
    have hp : ("Fiducial_".data).isPrefixOf (c :: rest) = false := by
      rw [e3]
      exact not_isPrefixOf_of_head_ne _ _ _ _ hcF
    simp [tryPattern3, hp]
  have e4 : "R_Array_Convex_".data = 'R' :: "_Array_Convex_".data := rfl
  have h4 : tryPattern4 (String.mk (c :: rest)).data = none := by
    have hp : ("R_Array_Convex_".data).isPrefixOf (c :: rest) = false := by
      rw [e4]
      exact not_isPrefixOf_of_head_ne _ _ _ _ hcR
    simp [tryPattern4, hp]
  simp [format_package, h1, h2, h3, h4]

lemma format_package_idem (s : String) :
    format_package (format_package s) = format_package s := by
  cases h1 : tryPattern1 s.data with
  | some v =>
    have hfp : format_package s = String.mk v := by
      simp [format_package, h1]
    obtain ⟨hne, hdig⟩ := tryPattern1_some s.data v h1
    obtain ⟨c, rest, rfl⟩ : ∃ c rest, v = c :: rest := by
      cases v with
      | nil => exact absurd rfl hne
      | cons a b => exact ⟨a, b, rfl⟩
    rw [hfp]
    exact format_package_fixed c rest (hdig c (List.mem_cons_self _ _))
      (fun x hx => Or.inl (hdig x hx))
  | none =>
    cases h2 : tryPattern2 s.data with
    | some v =>
      have hv := tryPattern2_some _ _ h2
      subst hv
      have hfp : format_package s = "SOIC-8" := by
        simp [format_package, h1, h2]
      rw [hfp]
      rfl
    | none =>
      cases h3 : tryPattern3 s.data with
      | some v =>
        have hv := tryPattern3_some _ _ h3
        subst hv
        have hfp : format_package s = "Fiducial" := by
          simp [format_package, h1, h2, h3]
        rw [hfp]
        rfl
      | none =>
        cases h4 : tryPattern4 s.data with
        | some v =>
          have hfp : format_package s = String.mk v := by
            simp [format_package, h1, h2, h3, h4]
          obtain ⟨c, rest, hv, hc, hall⟩ := tryPattern4_some _ _ h4
          subst hv
          rw [hfp]
          exact format_package_fixed c rest hc hall
        | none =>
          have hfp : format_package s = s := by
            simp [format_package, h1, h2, h3, h4]
          rw [hfp]
          exact hfp

lemma format_value_idem (s : String) :
    format_value (format_value s) = format_value s := by
  have key : ∀ c ∈ (s.data.map (fun c => if c = 'µ' then 'u' else c)).filter
      (fun c => c != '\u2126'),
      (if c = 'µ' then 'u' else c) = c ∧ (c != '\u2126') = true := by
    intro c hc
    have hg := List.of_mem_filter hc
    have hm := List.mem_of_mem_filter hc
    obtain ⟨a, ha, rfl⟩ := List.mem_map.mp hm
    refine ⟨?_, hg⟩
    by_cases h : a = 'µ'
    · subst h
      decide
    · rw [if_neg h, if_neg h]
  have h1 : ((s.data.map (fun c => if c = 'µ' then 'u' else c)).filter
        (fun c => c != '\u2126')).map (fun c => if c = 'µ' then 'u' else c)
      = (s.data.map (fun c => if c = 'µ' then 'u' else c)).filter
        (fun c => c != '\u2126') :=
    ((List.map_congr_left (fun a ha => (key a ha).1)).trans (List.map_id _))
  have h2 : ((s.data.map (fun c => if c = 'µ' then 'u' else c)).filter
        (fun c => c != '\u2126')).filter (fun c => c != '\u2126')
      = (s.data.map (fun c => if c = 'µ' then 'u' else c)).filter
        (fun c => c != '\u2126') :=
    List.filter_eq_self.mpr (fun a ha => (key a ha).2)
  show String.mk _ = String.mk _
  rw [show (format_value s).data
      = (s.data.map (fun c => if c = 'µ' then 'u' else c)).filter
        (fun c => c != '\u2126') from rfl, h1, h2]

lemma map_layer_double (s : String) : map_layer (map_layer s) = "" := by
  by_cases h1 : s = "top"
  · subst h1
    rfl
  · by_cases h2 : s = "bottom"
    · subst h2
      rfl
    · have h : map_layer s = "" := by simp [map_layer, h1, h2]
      rw [h]
      rfl

/-- Claim C8 counterexample: the Layer mapper is not idempotent — applying
`map_layer` to its own output on "top" gives the empty string, not "T". -/
theorem map_layer_not_idempotent_cex :
    map_layer (map_layer "top") ≠ map_layer "top" := by decide

/-- Claim C8 (amended): the Package normalizer and the Value normalizer are
idempotent; the Layer mapper is not — none of its non-empty outputs is a
fixed point, and applying it twice always yields the empty string. -/
theorem package_value_idempotent_layer_not :
    (∀ s, format_package (format_package s) = format_package s)
    ∧ (∀ s, format_value (format_value s) = format_value s)
    ∧ (∀ s, map_layer (map_layer s) = "") :=
  ⟨format_package_idem, format_value_idem, map_layer_double⟩
